import Mathlib

/-!
Shallow embedding of the financial-statement normalization and formatting
pipeline of `src/main.py` (functions `format_number`, `format_financial_number`,
`order_financial_statement`, `format_financial_dataframe`), together with
theorems settling the claims about it.

Python floats are abstracted by `PyFloat`: finite values are exact rationals,
and the non-finite values (positive and negative infinity, NaN) are explicit
constructors.  Pandas DataFrames are abstracted as a list of labelled rows
over a list of columns; `df.reindex` is modelled with `Except` because pandas
raises `ValueError` when the existing index has duplicate labels.

Because `Rat.mul` / `Rat.div` are `@[irreducible]` in the ambient library and
hence opaque to `decide`, the two places where the source divides by a power
of ten (`num/1e12` …) and multiplies by `100` (inside `f"{x:.2f}"`) are
implemented by the exact-rational helpers `divQ` and `mulQ`; the lemmas
`divQ_eq` and `mulQ_eq` prove them equal to `v / d` and `v * n`.
-/

deriving instance DecidableEq for Except

namespace Stocks

/-- Exact rational division by a natural constant, evaluable by the kernel. -/
def divQ (v : ℚ) (d : Nat) : ℚ := mkRat v.num (v.den * d)

/-- Exact rational multiplication by a natural constant, evaluable by the kernel. -/
def mulQ (v : ℚ) (n : Nat) : ℚ := mkRat (v.num * n) v.den

/-- A Python float: a finite rational, or one of the non-finite values. -/
inductive PyFloat where
  | finite (v : ℚ)
  | posInf
  | negInf
  | nan
deriving DecidableEq

/-- `pd.isna` on a scalar float: true exactly for NaN (not for infinities). -/
def pyIsNa : PyFloat → Bool
  | PyFloat.nan => true
  | _ => false

/-- Python `abs` on a float. -/
def pyAbs : PyFloat → PyFloat
  | PyFloat.finite v => PyFloat.finite (if v < 0 then -v else v)
  | PyFloat.posInf => PyFloat.posInf
  | PyFloat.negInf => PyFloat.posInf
  | PyFloat.nan => PyFloat.nan

/-- Python `x >= c` for a finite constant `c` (NaN compares false). -/
def pyGeC (x : PyFloat) (c : ℚ) : Bool :=
  match x with
  | PyFloat.finite v => decide (c ≤ v)
  | PyFloat.posInf => true
  | PyFloat.negInf => false
  | PyFloat.nan => false

/-- Python `x / d` for a positive natural constant `d`. -/
def pyDivC (x : PyFloat) (d : Nat) : PyFloat :=
  match x with
  | PyFloat.finite v => PyFloat.finite (divQ v d)
  | PyFloat.posInf => PyFloat.posInf
  | PyFloat.negInf => PyFloat.negInf
  | PyFloat.nan => PyFloat.nan

/-- Round a rational to the nearest integer, ties to the even integer
(Python's rounding mode for `format`).  The fractional part of `q` is
`r / q.den` with `r = q.num - ⌊q⌋ * q.den`, so `frac < 1/2 ↔ 2r < q.den`. -/
def roundHalfEven (q : ℚ) : ℤ :=
  let f : ℤ := q.floor
  let r : ℤ := q.num - f * (q.den : ℤ)
  if 2 * r < (q.den : ℤ) then f
  else if (q.den : ℤ) < 2 * r then f + 1
  else if f % 2 = 0 then f else f + 1

/-- Render a natural number below 100 as two digits. -/
def twoDigits (r : Nat) : String :=
  (if r < 10 then "0" else "") ++ toString r

/-- Python `f"{q:.2f}"` for a finite value: fixed-point with two decimals,
rounding ties to even; a negative value rounding to zero keeps its sign. -/
def formatFixed2 (q : ℚ) : String :=
  let n : ℤ := roundHalfEven (mulQ q 100)
  let m : Nat := n.natAbs
  (if q < 0 then "-" else "") ++ toString (m / 100) ++ "." ++ twoDigits (m % 100)

/-- Python `f"{x:.2f}"` on any float (`inf`, `-inf` and `nan` print as such). -/
def pyFormat2 : PyFloat → String
  | PyFloat.finite v => formatFixed2 v
  | PyFloat.posInf => "inf"
  | PyFloat.negInf => "-inf"
  | PyFloat.nan => "nan"

/-- `format_number` from `src/main.py`: currency-prefixed magnitude scaling
with T/B/M/K suffixes (thresholds 1e12, 1e9, 1e6, 1e3); `None` and NaN yield
`"N/A"`. -/
def format_number (num : Option PyFloat) : String :=
  match num with
  | Option.none => "N/A"
  | some x =>
    if pyIsNa x then "N/A"
    else if pyGeC (pyAbs x) 1000000000000 then "$" ++ pyFormat2 (pyDivC x 1000000000000) ++ "T"
    else if pyGeC (pyAbs x) 1000000000 then "$" ++ pyFormat2 (pyDivC x 1000000000) ++ "B"
    else if pyGeC (pyAbs x) 1000000 then "$" ++ pyFormat2 (pyDivC x 1000000) ++ "M"
    else if pyGeC (pyAbs x) 1000 then "$" ++ pyFormat2 (pyDivC x 1000) ++ "K"
    else "$" ++ pyFormat2 x

/-- `format_financial_number` from `src/main.py`: magnitude scaling with
B/M/K suffixes (thresholds 1e9, 1e6, 1e3) and no currency prefix; `None` and
NaN yield `"N/A"`. -/
def format_financial_number (num : Option PyFloat) : String :=
  match num with
  | Option.none => "N/A"
  | some x =>
    if pyIsNa x then "N/A"
    else if pyGeC (pyAbs x) 1000000000 then pyFormat2 (pyDivC x 1000000000) ++ "B"
    else if pyGeC (pyAbs x) 1000000 then pyFormat2 (pyDivC x 1000000) ++ "M"
    else if pyGeC (pyAbs x) 1000 then pyFormat2 (pyDivC x 1000) ++ "K"
    else pyFormat2 x

/-- A cell of a pandas DataFrame as the source can encounter it: a Python
int, float, bool, `None`, or a non-numeric (string) object. -/
inductive Cell where
  | intVal (n : ℤ)
  | floatVal (x : PyFloat)
  | boolVal (b : Bool)
  | noneVal
  | strVal (s : String)
deriving DecidableEq

/-- `pd.notna` on a scalar cell: false exactly for `None` and NaN. -/
def pdNotna : Cell → Bool
  | Cell.noneVal => false
  | Cell.floatVal PyFloat.nan => false
  | _ => true

/-- Python `isinstance(x, (int, float))`; `bool` is a subclass of `int`. -/
def isIntOrFloat : Cell → Bool
  | Cell.intVal _ => true
  | Cell.floatVal _ => true
  | Cell.boolVal _ => true
  | _ => false

/-- Python `float(x)` on a numeric cell (`float(True) = 1.0`, `float(False) = 0.0`). -/
def toPyFloat : Cell → PyFloat
  | Cell.intVal n => PyFloat.finite (n : ℚ)
  | Cell.floatVal x => x
  | Cell.boolVal b => PyFloat.finite (if b then 1 else 0)
  | _ => PyFloat.nan

/-- A pandas DataFrame: column labels plus rows of (index label, cells). -/
structure DataFrame where
  cols : List String
  rows : List (String × List Cell)
deriving DecidableEq

/-- `df.index.tolist()`: the row labels in order. -/
def DataFrame.index (df : DataFrame) : List String := df.rows.map Prod.fst

/-- `df.empty`: true when either axis has length zero. -/
def DataFrame.isEmptyDF (df : DataFrame) : Bool := df.rows.isEmpty || df.cols.isEmpty

/-- `income_statement_order` from `order_financial_statement` in `src/main.py`. -/
def income_statement_order : List String :=
  ["Total Revenue", "Revenue", "Operating Revenue",
   "Cost Of Revenue", "Gross Profit",
   "Operating Expense", "Selling General And Administration", "Research And Development",
   "Operating Income", "EBITDA", "EBIT",
   "Interest Expense", "Interest Income", "Other Income Expense",
   "Pretax Income", "Income Before Tax", "Tax Provision",
   "Net Income From Continuing Operations", "Net Income",
   "Diluted EPS", "Basic EPS",
   "Diluted Average Shares", "Basic Average Shares"]

/-- `balance_sheet_order` from `order_financial_statement` in `src/main.py`. -/
def balance_sheet_order : List String :=
  ["Total Assets", "Current Assets",
   "Cash And Cash Equivalents", "Cash Cash Equivalents And Short Term Investments",
   "Receivables", "Accounts Receivable", "Inventory", "Other Current Assets",
   "Total Non Current Assets", "Net PPE", "Gross PPE", "Properties",
   "Goodwill", "Other Intangible Assets", "Investments And Advances",
   "Total Liabilities Net Minority Interest",
   "Current Liabilities", "Accounts Payable", "Current Debt",
   "Other Current Liabilities",
   "Total Non Current Liabilities Net Minority Interest",
   "Long Term Debt", "Other Non Current Liabilities",
   "Stockholders Equity", "Total Equity Gross Minority Interest",
   "Common Stock", "Retained Earnings", "Treasury Stock",
   "Total Capitalization", "Share Issued"]

/-- `cash_flow_order` from `order_financial_statement` in `src/main.py`. -/
def cash_flow_order : List String :=
  ["Operating Cash Flow", "Cash Flow From Continuing Operating Activities",
   "Net Income From Continuing Operations", "Depreciation And Amortization",
   "Deferred Tax", "Stock Based Compensation",
   "Change In Working Capital", "Change In Receivables", "Change In Inventory",
   "Change In Payables And Accrued Expense",
   "Investing Cash Flow", "Cash Flow From Continuing Investing Activities",
   "Net PPE Purchase And Sale", "Purchase Of PPE",
   "Net Investment Purchase And Sale", "Purchase Of Investment",
   "Sale Of Investment",
   "Financing Cash Flow", "Cash Flow From Continuing Financing Activities",
   "Net Issuance Payments Of Debt", "Net Long Term Debt Issuance",
   "Net Short Term Debt Issuance", "Repurchase Of Capital Stock",
   "Common Stock Dividend Paid",
   "End Cash Position", "Beginning Cash Position",
   "Free Cash Flow"]

/-- The `if statement_type == 'income' … elif … else` dispatch: the canonical
order list for a recognized statement kind, none otherwise. -/
def kindOrder : Option String → Option (List String)
  | some "income" => some income_statement_order
  | some "balance" => some balance_sheet_order
  | some "cashflow" => some cash_flow_order
  | _ => Option.none

/-- Pass 1 of `order_financial_statement`: the canonical names that occur
among the current row labels, in canonical order. -/
def pass1Indices (canon current : List String) : List String :=
  canon.filter (fun item => decide (item ∈ current))

/-- Pass 2 of `order_financial_statement`: append each current label not yet
placed, preserving the original relative order. -/
def appendMissing (acc : List String) (current : List String) : List String :=
  current.foldl (fun a item => if item ∈ a then a else a ++ [item]) acc

/-- The `ordered_indices` list built by `order_financial_statement`. -/
def orderedIndices (canon current : List String) : List String :=
  appendMissing (pass1Indices canon current) current

/-- Row lookup used by `df.reindex`: the first row with the given label, or a
row of NaN when the label is absent. -/
def lookupRow (rows : List (String × List Cell)) (cols : List String) (label : String) :
    String × List Cell :=
  match rows.find? (fun r => r.fst == label) with
  | some r => (label, r.snd)
  | Option.none => (label, cols.map (fun _ => Cell.floatVal PyFloat.nan))

/-- The frame produced by a successful `df.reindex(idx)`: one row per
requested label, in the requested order. -/
def reindexFrame (df : DataFrame) (idx : List String) : DataFrame :=
  { cols := df.cols, rows := idx.map (fun label => lookupRow df.rows df.cols label) }

/-- `df.reindex(idx)`: pandas raises `ValueError` when the existing index has
duplicate labels; otherwise it selects the row for each requested label. -/
def reindexE (df : DataFrame) (idx : List String) : Except String DataFrame :=
  if df.index.Nodup then Except.ok (reindexFrame df idx)
  else Except.error "cannot reindex on an axis with duplicate labels"

/-- `order_financial_statement` from `src/main.py`: `None` and empty frames
pass through; an unrecognized kind passes through; otherwise the frame is
reindexed by the two-pass `ordered_indices`. -/
def order_financial_statement (df : Option DataFrame) (statement_type : Option String) :
    Except String (Option DataFrame) :=
  match df with
  | Option.none => Except.ok Option.none
  | some d =>
    if d.isEmptyDF then Except.ok (some d)
    else
      match kindOrder statement_type with
      | Option.none => Except.ok (some d)
      | some canon => (reindexE d (orderedIndices canon d.index)).map (fun r => some r)

/-- One cell of the `df_formatted[col].apply(...)` loop: numeric non-missing
cells are replaced by their formatted string, everything else passes through. -/
def formatCell (x : Cell) : Cell :=
  if pdNotna x && isIntOrFloat x then Cell.strVal (format_financial_number (some (toPyFloat x)))
  else x

/-- The whole `for col in df_formatted.columns` formatting loop. -/
def formatAllCells (d : DataFrame) : DataFrame :=
  { cols := d.cols, rows := d.rows.map (fun r => (r.fst, r.snd.map formatCell)) }

/-- Python truthiness of the `statement_type` argument (`None` and `""` are falsy). -/
def truthy : Option String → Bool
  | Option.none => false
  | some s => s ≠ ""

/-- `format_financial_dataframe` from `src/main.py`: `None` and empty frames
pass through; otherwise the frame is copied, reordered when a truthy
`statement_type` is given, and every numeric cell is formatted. -/
def format_financial_dataframe (df : Option DataFrame) (statement_type : Option String) :
    Except String (Option DataFrame) :=
  match df with
  | Option.none => Except.ok Option.none
  | some d =>
    if d.isEmptyDF then Except.ok (some d)
    else
      (if truthy statement_type then order_financial_statement (some d) statement_type
       else Except.ok (some d)).map (fun r => r.map formatAllCells)

/-- The C2 example frame: income-statement rows in non-canonical order. -/
def exampleIncomeDF : DataFrame :=
  { cols := ["2024"],
    rows := [("Net Income", [Cell.intVal 5]),
             ("Total Revenue", [Cell.intVal 100]),
             ("XYZ-Custom-Line", [Cell.intVal 7])] }

/-- The zero-row, zero-column frame. -/
def emptyDF : DataFrame := { cols := [], rows := [] }

/-- A frame holding one `True` and one `False` cell. -/
def boolCellDF : DataFrame :=
  { cols := ["2024"],
    rows := [("Flag", [Cell.boolVal true]), ("Gate", [Cell.boolVal false])] }

/-- `boolCellDF` after normalization: the booleans became formatted strings. -/
def boolCellDFFormatted : DataFrame :=
  { cols := ["2024"],
    rows := [("Flag", [Cell.strVal "1.00"]), ("Gate", [Cell.strVal "0.00"])] }

/-- A heap of DataFrame objects; a reference is an index into the heap.
This models Python object identity for the no-mutation claim. -/
structure Store where
  dfs : List DataFrame
deriving DecidableEq

/-- Dereference (out-of-range references yield the empty frame). -/
def Store.getRef (s : Store) (r : Nat) : DataFrame := s.dfs.getD r emptyDF

/-- Allocate a fresh frame, returning the new heap and the new reference. -/
def Store.alloc (s : Store) (d : DataFrame) : Store × Nat :=
  ({ dfs := s.dfs ++ [d] }, s.dfs.length)

/-- Overwrite the frame at a reference (in-place mutation). -/
def Store.setRef (s : Store) (r : Nat) (d : DataFrame) : Store :=
  { dfs := s.dfs.set r d }

/-- State-passing model of `format_financial_dataframe` at the object level:
the `df is None or df.empty` guard returns the input reference unchanged;
otherwise `df.copy()` allocates a fresh frame, `df.reindex` inside
`order_financial_statement` allocates another fresh frame, and the
per-column `df_formatted[col] = …` loop mutates the copied or reindexed
frame in place at its own reference.  The input frame is never written. -/
def formatFinancialDataframeSt (s : Store) (r : Nat) (st : Option String) :
    Except String (Store × Nat) :=
  let d := s.getRef r
  if d.isEmptyDF then Except.ok (s, r)
  else
    let s1 := (s.alloc d).fst
    let r1 := (s.alloc d).snd
    if truthy st then
      match kindOrder st with
      | Option.none => Except.ok (s1.setRef r1 (formatAllCells d), r1)
      | some canon =>
        (reindexE d (orderedIndices canon d.index)).map
          (fun d2 => ((s1.alloc d2).fst.setRef (s1.alloc d2).snd (formatAllCells d2),
            (s1.alloc d2).snd))
    else Except.ok (s1.setRef r1 (formatAllCells d), r1)

/-- The one-frame heap used to witness the no-mutation theorem. -/
def storeW : Store := { dfs := [exampleIncomeDF] }

theorem divQ_eq (v : ℚ) (d : Nat) : divQ v d = v / (d : ℚ) := by
  rw [divQ, Rat.mkRat_eq_div]
  push_cast
  rw [div_mul_eq_div_div, Rat.num_div_den]

theorem mulQ_eq (v : ℚ) (n : Nat) : mulQ v n = v * (n : ℚ) := by
  have hden : ((v.den : ℚ)) ≠ 0 := by exact_mod_cast v.den_nz
  have hnum : (v.num : ℚ) = v * (v.den : ℚ) := (div_eq_iff hden).1 (Rat.num_div_den v)
  rw [mulQ, Rat.mkRat_eq_div, div_eq_iff hden]
  push_cast
  rw [hnum, mul_right_comm]

theorem appendMissing_nil (acc : List String) : appendMissing acc [] = acc := rfl

theorem appendMissing_cons (acc : List String) (a : String) (l : List String) :
    appendMissing acc (a :: l) = appendMissing (if a ∈ acc then acc else acc ++ [a]) l := rfl

theorem mem_appendMissing (current : List String) :
    ∀ (acc : List String) (s : String),
      s ∈ appendMissing acc current ↔ s ∈ acc ∨ s ∈ current := by
  induction current with
  | nil =>
    intro acc s
    simp [appendMissing_nil]
  | cons a l ih =>
    intro acc s
    rw [appendMissing_cons]
    by_cases h : a ∈ acc
    · rw [if_pos h, ih]
      constructor
      · rintro (hs | hs)
        · exact Or.inl hs
        · exact Or.inr (List.mem_cons_of_mem _ hs)
      · rintro (hs | hs)
        · exact Or.inl hs
        · rcases List.mem_cons.mp hs with rfl | hs
          · exact Or.inl h
          · exact Or.inr hs
    · rw [if_neg h, ih]
      simp only [List.mem_append, List.mem_singleton, List.mem_cons]
      tauto

theorem appendMissing_eq_filter (current : List String) :
    ∀ acc : List String, current.Nodup →
      appendMissing acc current = acc ++ current.filter (fun s => decide (s ∉ acc)) := by
  induction current with
  | nil =>
    intro acc _
    simp [appendMissing_nil]
  | cons a l ih =>
    intro acc hnd
    rcases List.nodup_cons.mp hnd with ⟨ha, hl⟩
    rw [appendMissing_cons]
    by_cases h : a ∈ acc
    · rw [if_pos h, ih acc hl, List.filter_cons]
      simp [h]
    · rw [if_neg h, ih _ hl, List.filter_cons]
      have hcond : (decide (a ∉ acc)) = true := decide_eq_true h
      rw [hcond]
      simp only [if_true]
      rw [List.append_assoc, List.singleton_append]
      congr 2
      apply List.filter_congr
      intro x hx
      have hxa : x ≠ a := fun he => ha (he ▸ hx)
      simp [List.mem_append, hxa]

theorem nodup_appendMissing (current : List String) :
    ∀ acc : List String, acc.Nodup → (appendMissing acc current).Nodup := by
  induction current with
  | nil =>
    intro acc h
    exact h
  | cons a l ih =>
    intro acc h
    rw [appendMissing_cons]
    by_cases hm : a ∈ acc
    · rw [if_pos hm]
      exact ih acc h
    · rw [if_neg hm]
      refine ih _ ?_
      simp [List.nodup_append, h, hm]

theorem mem_pass1Indices (canon current : List String) (s : String) :
    s ∈ pass1Indices canon current ↔ s ∈ canon ∧ s ∈ current := by
  unfold pass1Indices
  rw [List.mem_filter]
  simp

theorem mem_orderedIndices (canon current : List String) (s : String) :
    s ∈ orderedIndices canon current ↔ s ∈ current := by
  rw [orderedIndices, mem_appendMissing]
  constructor
  · rintro (h | h)
    · exact ((mem_pass1Indices canon current s).mp h).2
    · exact h
  · intro h
    exact Or.inr h

theorem orderedIndices_eq (canon current : List String) (h : current.Nodup) :
    orderedIndices canon current =
      pass1Indices canon current ++ current.filter (fun s => decide (s ∉ canon)) := by
  rw [orderedIndices, appendMissing_eq_filter current _ h]
  congr 1
  apply List.filter_congr
  intro x hx
  simp only [decide_eq_decide]
  rw [not_iff_not, mem_pass1Indices]
  simp [hx]

theorem nodup_orderedIndices (canon current : List String) (hc : canon.Nodup) :
    (orderedIndices canon current).Nodup :=
  nodup_appendMissing current _ (hc.filter _)

theorem orderedIndices_idem (canon current : List String)
    (hc : canon.Nodup) (h : current.Nodup) :
    orderedIndices canon (orderedIndices canon current) = orderedIndices canon current := by
  have hmem : ∀ s, s ∈ orderedIndices canon current ↔ s ∈ current :=
    mem_orderedIndices canon current
  have hnd : (orderedIndices canon current).Nodup := nodup_orderedIndices canon current hc
  rw [orderedIndices_eq canon _ hnd]
  have hp : pass1Indices canon (orderedIndices canon current) = pass1Indices canon current := by
    unfold pass1Indices
    apply List.filter_congr
    intro x _
    simp only [decide_eq_decide]
    exact hmem x
  rw [hp, orderedIndices_eq canon current h]
  rw [List.filter_append]
  have h1 : (pass1Indices canon current).filter (fun s => decide (s ∉ canon)) = [] := by
    apply List.filter_eq_nil_iff.mpr
    intro a ha
    simp only [decide_eq_true_eq, not_not]
    exact ((mem_pass1Indices canon current a).mp ha).1
  have h2 : (current.filter (fun s => decide (s ∉ canon))).filter
      (fun s => decide (s ∉ canon)) = current.filter (fun s => decide (s ∉ canon)) := by
    apply List.filter_eq_self.mpr
    intro a ha
    exact (List.mem_filter.mp ha).2
  rw [h1, h2, List.nil_append]

theorem lookupRow_fst (rows : List (String × List Cell)) (cols : List String) (label : String) :
    (lookupRow rows cols label).fst = label := by
  unfold lookupRow
  cases rows.find? (fun r => r.fst == label) <;> rfl

theorem reindex_map_fst (rows : List (String × List Cell)) (cols : List String)
    (idx : List String) :
    (idx.map (fun label => lookupRow rows cols label)).map Prod.fst = idx := by
  rw [List.map_map]
  have h : (Prod.fst ∘ fun label => lookupRow rows cols label) = id :=
    funext (fun l => lookupRow_fst rows cols l)
  rw [h, List.map_id]

theorem reindexFrame_index (d : DataFrame) (idx : List String) :
    (reindexFrame d idx).index = idx := by
  unfold reindexFrame DataFrame.index
  exact reindex_map_fst d.rows d.cols idx

theorem reindex_self (cols : List String) :
    ∀ rows : List (String × List Cell), (rows.map Prod.fst).Nodup →
      (rows.map Prod.fst).map (fun label => lookupRow rows cols label) = rows := by
  intro rows
  induction rows with
  | nil =>
    intro _
    rfl
  | cons r rest ih =>
    intro hnd
    rw [List.map_cons, List.map_cons]
    rcases List.nodup_cons.mp (List.map_cons Prod.fst r rest ▸ hnd) with ⟨hr, hrest⟩
    congr 1
    · unfold lookupRow
      rw [List.find?_cons_of_pos _ (by simp)]
    · have hcong : ∀ l ∈ rest.map Prod.fst,
          lookupRow (r :: rest) cols l = lookupRow rest cols l := by
        intro l hl
        have hne : ¬(r.fst == l) = true := by
          simp only [beq_iff_eq]
          intro he
          exact hr (he ▸ hl)
        have hfind : List.find? (fun x => x.fst == l) (r :: rest) =
            List.find? (fun x => x.fst == l) rest := by
          rw [List.find?_cons_of_neg]
          exact hne
        unfold lookupRow
        rw [hfind]
      rw [List.map_congr_left hcong, ih hrest]

theorem kindOrder_nodup (st : Option String) (canon : List String)
    (h : kindOrder st = some canon) : canon.Nodup := by
  unfold kindOrder at h
  split at h
  · cases h
    decide
  · cases h
    decide
  · cases h
    decide
  · cases h

theorem order_financial_statement_ok (d : DataFrame) (st : Option String)
    (canon : List String) (hk : kindOrder st = some canon)
    (hnd : d.index.Nodup) (hne : d.isEmptyDF = false) :
    order_financial_statement (some d) st =
      Except.ok (some (reindexFrame d (orderedIndices canon d.index))) := by
  simp only [order_financial_statement]
  rw [if_neg (by simp [hne]), hk]
  show Except.map (fun r => some r) (reindexE d (orderedIndices canon d.index)) = _
  unfold reindexE
  rw [if_pos hnd]
  rfl

theorem order_financial_statement_passthrough (d : DataFrame) (st : Option String)
    (hk : kindOrder st = Option.none) (hne : d.isEmptyDF = false) :
    order_financial_statement (some d) st = Except.ok (some d) := by
  simp only [order_financial_statement]
  rw [if_neg (by simp [hne]), hk]

theorem formatAllCells_index (d : DataFrame) : (formatAllCells d).index = d.index := by
  unfold formatAllCells DataFrame.index
  rw [List.map_map]
  rfl

theorem formatAllCells_isEmpty (d : DataFrame) :
    (formatAllCells d).isEmptyDF = d.isEmptyDF := by
  unfold formatAllCells DataFrame.isEmptyDF
  cases d.rows <;> rfl

theorem formatCell_idem (x : Cell) : formatCell (formatCell x) = formatCell x := by
  cases x with
  | intVal n => rfl
  | floatVal y => cases y <;> rfl
  | boolVal b => rfl
  | noneVal => rfl
  | strVal s => rfl

theorem formatAllCells_idem (d : DataFrame) :
    formatAllCells (formatAllCells d) = formatAllCells d := by
  unfold formatAllCells
  simp only [List.map_map]
  congr 1
  apply List.map_congr_left
  intro r _
  simp only [Function.comp_apply, List.map_map]
  congr 1
  apply List.map_congr_left
  intro c _
  exact formatCell_idem c

/-- **C1.** Row-set conservation: for every non-empty (uniquely labelled)
table and every statement kind, the output of `order_financial_statement` has
exactly the same set of row labels as the input — no row dropped or invented. -/
theorem C1_row_set_conservation (d : DataFrame) (st : Option String)
    (hnd : d.index.Nodup) (hne : d.isEmptyDF = false) :
    ∃ d2 : DataFrame, order_financial_statement (some d) st = Except.ok (some d2) ∧
      ∀ s : String, s ∈ d2.index ↔ s ∈ d.index := by
  cases hk : kindOrder st with
  | none =>
    exact ⟨d, order_financial_statement_passthrough d st hk hne, fun s => Iff.rfl⟩
  | some canon =>
    refine ⟨reindexFrame d (orderedIndices canon d.index),
      order_financial_statement_ok d st canon hk hnd hne, fun s => ?_⟩
    rw [reindexFrame_index]
    exact mem_orderedIndices canon d.index s

theorem C1_witness :
    exampleIncomeDF.index.Nodup ∧ exampleIncomeDF.isEmptyDF = false ∧
    ∃ d2 : DataFrame,
      order_financial_statement (some exampleIncomeDF) (some "income") = Except.ok (some d2) ∧
      ∀ s : String, s ∈ d2.index ↔ s ∈ exampleIncomeDF.index :=
  ⟨by decide, by decide,
    C1_row_set_conservation exampleIncomeDF (some "income") (by decide) (by decide)⟩

/-- **C2.** Two-pass reordering: for every (uniquely labelled, non-empty)
table and recognized kind, the output row sequence is the canonical names
present in the input, in canonical relative order, followed by the remaining
input labels in their original relative order; in particular the income
example `["Net Income", "Total Revenue", "XYZ-Custom-Line"]` reorders to
`["Total Revenue", "Net Income", "XYZ-Custom-Line"]`. -/
theorem C2_two_pass_reordering :
    (∀ (d : DataFrame) (st : Option String) (canon : List String),
        kindOrder st = some canon → d.index.Nodup → d.isEmptyDF = false →
        ∃ d2 : DataFrame, order_financial_statement (some d) st = Except.ok (some d2) ∧
          d2.index = canon.filter (fun s => decide (s ∈ d.index)) ++
            d.index.filter (fun s => decide (s ∉ canon))) ∧
    (order_financial_statement (some exampleIncomeDF) (some "income")).map
        (fun r => r.map DataFrame.index) =
      Except.ok (some ["Total Revenue", "Net Income", "XYZ-Custom-Line"]) := by
  constructor
  · intro d st canon hk hnd hne
    refine ⟨reindexFrame d (orderedIndices canon d.index),
      order_financial_statement_ok d st canon hk hnd hne, ?_⟩
    rw [reindexFrame_index, orderedIndices_eq canon d.index hnd]
    rfl
  · decide

theorem C2_witness :
    kindOrder (some "income") = some income_statement_order ∧
    exampleIncomeDF.index.Nodup ∧ exampleIncomeDF.isEmptyDF = false ∧
    ∃ d2 : DataFrame,
      order_financial_statement (some exampleIncomeDF) (some "income") = Except.ok (some d2) ∧
      d2.index = income_statement_order.filter (fun s => decide (s ∈ exampleIncomeDF.index)) ++
        exampleIncomeDF.index.filter (fun s => decide (s ∉ income_statement_order)) :=
  ⟨rfl, by decide, by decide,
    C2_two_pass_reordering.1 exampleIncomeDF (some "income") income_statement_order rfl
      (by decide) (by decide)⟩

/-- **C3.** Magnitude-scaling thresholds: `format_financial_number` maps 999
to `"999.00"`, 1500 to `"1.50K"`, 2300000 to `"2.30M"`, 4100000000 to
`"4.10B"` and `None` to `"N/A"`; and `format_number` renders every finite
value of magnitude at least 1e12 as the value divided by 1e12, two decimals,
prefixed `"$"` and suffixed `"T"`. -/
theorem C3_formatting_thresholds :
    format_financial_number (some (PyFloat.finite 999)) = "999.00" ∧
    format_financial_number (some (PyFloat.finite 1500)) = "1.50K" ∧
    format_financial_number (some (PyFloat.finite 2300000)) = "2.30M" ∧
    format_financial_number (some (PyFloat.finite 4100000000)) = "4.10B" ∧
    format_financial_number Option.none = "N/A" ∧
    ∀ v : ℚ, (1000000000000 : ℚ) ≤ (if v < 0 then -v else v) →
      format_number (some (PyFloat.finite v)) =
        "$" ++ formatFixed2 (v / (1000000000000 : ℚ)) ++ "T" := by
  refine ⟨by decide, by decide, by decide, by decide, by decide, ?_⟩
  intro v hv
  have hge : pyGeC (pyAbs (PyFloat.finite v)) 1000000000000 = true := by
    unfold pyAbs pyGeC
    exact decide_eq_true hv
  simp only [format_number]
  rw [show pyIsNa (PyFloat.finite v) = false from rfl]
  rw [if_neg (by simp), if_pos hge]
  show "$" ++ formatFixed2 (divQ v 1000000000000) ++ "T" = _
  rw [divQ_eq]
  norm_num

theorem C3_witness :
    ((1000000000000 : ℚ) ≤
      (if (2500000000000 : ℚ) < 0 then -(2500000000000 : ℚ) else (2500000000000 : ℚ))) ∧
    format_number (some (PyFloat.finite 2500000000000)) =
      "$" ++ formatFixed2 ((2500000000000 : ℚ) / (1000000000000 : ℚ)) ++ "T" :=
  ⟨by norm_num, C3_formatting_thresholds.2.2.2.2.2 2500000000000 (by norm_num)⟩

/-- **C4.** Totality: on the legal domain (tables keyed by line-item name,
i.e. with pairwise-distinct row labels) the normalizer always returns a
defined output and never raises, for any cells and any kind value. -/
theorem C4_totality (df : Option DataFrame) (st : Option String)
    (hnd : ∀ d : DataFrame, df = some d → d.index.Nodup) :
    ∃ r : Option DataFrame, format_financial_dataframe df st = Except.ok r := by
  cases df with
  | none => exact ⟨Option.none, rfl⟩
  | some d =>
    have hnd' : d.index.Nodup := hnd d rfl
    simp only [format_financial_dataframe]
    by_cases he : d.isEmptyDF = true
    · rw [if_pos he]
      exact ⟨some d, rfl⟩
    · have hne : d.isEmptyDF = false := by simpa using he
      rw [if_neg he]
      by_cases ht : truthy st = true
      · rw [if_pos ht]
        cases hk : kindOrder st with
        | none =>
          rw [order_financial_statement_passthrough d st hk hne]
          exact ⟨some (formatAllCells d), rfl⟩
        | some canon =>
          rw [order_financial_statement_ok d st canon hk hnd' hne]
          exact ⟨some (formatAllCells (reindexFrame d (orderedIndices canon d.index))), rfl⟩
      · rw [if_neg ht]
        exact ⟨some (formatAllCells d), rfl⟩

theorem C4_witness :
    (∀ d : DataFrame, (some exampleIncomeDF : Option DataFrame) = some d → d.index.Nodup) ∧
    ∃ r : Option DataFrame,
      format_financial_dataframe (some exampleIncomeDF) (some "income") = Except.ok r := by
  have h : ∀ d : DataFrame, (some exampleIncomeDF : Option DataFrame) = some d →
      d.index.Nodup := by
    intro d hd
    cases hd
    decide
  exact ⟨h, C4_totality (some exampleIncomeDF) (some "income") h⟩

/-- **C5 counterexample.** The claim that every non-finite input yields
`"N/A"` is false: `pd.isna` is false on infinities, so positive infinity
falls into the largest magnitude branch and is rendered `"$infT"` by
`format_number` (and `"infB"` by `format_financial_number`), not `"N/A"`. -/
theorem C5_counterexample :
    format_number (some PyFloat.posInf) = "$infT" ∧
    format_financial_number (some PyFloat.posInf) = "infB" ∧
    ¬ format_number (some PyFloat.posInf) = "N/A" ∧
    ¬ format_financial_number (some PyFloat.posInf) = "N/A" := by decide

/-- **C5 (amended).** Missing inputs (`None`, NaN) make both formatters
return `"N/A"` without raising; infinite inputs also do not raise, but are
rendered into the top magnitude bucket (`"$infT"`, `"$-infT"`, `"infB"`,
`"-infB"`) rather than `"N/A"`. -/
theorem C5_missing_na_amended :
    format_number Option.none = "N/A" ∧
    format_number (some PyFloat.nan) = "N/A" ∧
    format_financial_number Option.none = "N/A" ∧
    format_financial_number (some PyFloat.nan) = "N/A" ∧
    format_number (some PyFloat.posInf) = "$infT" ∧
    format_number (some PyFloat.negInf) = "$-infT" ∧
    format_financial_number (some PyFloat.posInf) = "infB" ∧
    format_financial_number (some PyFloat.negInf) = "-infB" := by decide

/-- **C7.** Empty or absent input is a no-op: `None` passes through as
`None`, and a frame with an empty axis is returned unchanged by both
`order_financial_statement` and `format_financial_dataframe`. -/
theorem C7_empty_noop :
    (∀ st : Option String,
      order_financial_statement Option.none st = Except.ok Option.none ∧
      format_financial_dataframe Option.none st = Except.ok Option.none) ∧
    ∀ (d : DataFrame) (st : Option String), d.isEmptyDF = true →
      order_financial_statement (some d) st = Except.ok (some d) ∧
      format_financial_dataframe (some d) st = Except.ok (some d) := by
  constructor
  · intro st
    exact ⟨rfl, rfl⟩
  · intro d st he
    constructor
    · simp only [order_financial_statement]
      rw [if_pos he]
    · simp only [format_financial_dataframe]
      rw [if_pos he]

theorem C7_witness :
    emptyDF.isEmptyDF = true ∧
    order_financial_statement (some emptyDF) (some "income") = Except.ok (some emptyDF) ∧
    format_financial_dataframe (some emptyDF) (some "income") = Except.ok (some emptyDF) :=
  ⟨by decide, C7_empty_noop.2 emptyDF (some "income") (by decide)⟩

/-- **C8.** Unspecified-kind behavior: for a non-empty table and any kind
outside the three recognized strings (including `None`), the normalizer
keeps the original row order exactly and still maps every cell through the
magnitude-scaling formatter guard. -/
theorem C8_unspecified_kind (d : DataFrame) (st : Option String)
    (hk : kindOrder st = Option.none) (hne : d.isEmptyDF = false) :
    format_financial_dataframe (some d) st = Except.ok (some (formatAllCells d)) ∧
    (formatAllCells d).index = d.index ∧
    (formatAllCells d).rows = d.rows.map (fun r => (r.fst, r.snd.map formatCell)) := by
  refine ⟨?_, formatAllCells_index d, rfl⟩
  simp only [format_financial_dataframe]
  rw [if_neg (by simp [hne])]
  by_cases ht : truthy st = true
  · rw [if_pos ht, order_financial_statement_passthrough d st hk hne]
    rfl
  · rw [if_neg ht]
    rfl

theorem C8_witness :
    kindOrder (some "quarterly") = Option.none ∧ exampleIncomeDF.isEmptyDF = false ∧
    (format_financial_dataframe (some exampleIncomeDF) (some "quarterly") =
        Except.ok (some (formatAllCells exampleIncomeDF)) ∧
      (formatAllCells exampleIncomeDF).index = exampleIncomeDF.index ∧
      (formatAllCells exampleIncomeDF).rows =
        exampleIncomeDF.rows.map (fun r => (r.fst, r.snd.map formatCell))) :=
  ⟨rfl, by decide, C8_unspecified_kind exampleIncomeDF (some "quarterly") rfl (by decide)⟩

/-- **C10.** Boolean cells pass the `isinstance(x, (int, float))` guard
(`bool` is a subclass of `int`), so `True` renders as `"1.00"` and `False`
as `"0.00"` instead of passing through unchanged. -/
theorem isEmptyDF_false_iff (d : DataFrame) :
    d.isEmptyDF = false ↔ d.rows ≠ [] ∧ d.cols ≠ [] := by
  obtain ⟨cols, rows⟩ := d
  unfold DataFrame.isEmptyDF
  cases rows <;> cases cols <;> simp

theorem index_ne_nil_of_rows (d : DataFrame) (h : d.rows ≠ []) : d.index ≠ [] := by
  unfold DataFrame.index
  intro hnil
  exact h (List.map_eq_nil_iff.mp hnil)

theorem orderedIndices_ne_nil (canon current : List String) (h : current ≠ []) :
    orderedIndices canon current ≠ [] := by
  rcases List.exists_mem_of_ne_nil current h with ⟨s, hs⟩
  intro hnil
  have hmem := (mem_orderedIndices canon current s).mpr hs
  rw [hnil] at hmem
  exact List.not_mem_nil s hmem

theorem reindexFrame_self (d : DataFrame) (hnd : d.index.Nodup) :
    reindexFrame d d.index = d := by
  unfold reindexFrame DataFrame.index
  rw [reindex_self d.cols d.rows hnd]

theorem ffd_nonempty_ordered (d : DataFrame) (st : Option String) (canon : List String)
    (hk : kindOrder st = some canon) (ht : truthy st = true)
    (hnd : d.index.Nodup) (hne : d.isEmptyDF = false) :
    format_financial_dataframe (some d) st =
      Except.ok (some (formatAllCells (reindexFrame d (orderedIndices canon d.index)))) := by
  simp only [format_financial_dataframe]
  rw [if_neg (by simp [hne]), if_pos ht, order_financial_statement_ok d st canon hk hnd hne]
  rfl

/-- **C6.** Idempotence: running the normalizer on its own output returns
the output unchanged (stated with `bind` so that an error on the first run
propagates identically on both sides). -/
theorem C6_idempotence (df : Option DataFrame) (st : Option String) :
    (format_financial_dataframe df st).bind (fun r => format_financial_dataframe r st) =
      format_financial_dataframe df st := by
  cases df with
  | none => rfl
  | some d =>
    by_cases he : d.isEmptyDF = true
    · have h1 : format_financial_dataframe (some d) st = Except.ok (some d) := by
        simp only [format_financial_dataframe]
        rw [if_pos he]
      rw [h1]
      show format_financial_dataframe (some d) st = Except.ok (some d)
      exact h1
    · have hne : d.isEmptyDF = false := by simpa using he
      obtain ⟨hrows, hcols⟩ := (isEmptyDF_false_iff d).mp hne
      by_cases ht : truthy st = true
      · cases hk : kindOrder st with
        | none =>
          have h1 : format_financial_dataframe (some d) st =
              Except.ok (some (formatAllCells d)) := by
            simp only [format_financial_dataframe]
            rw [if_neg he, if_pos ht, order_financial_statement_passthrough d st hk hne]
            rfl
          have he2 : (formatAllCells d).isEmptyDF = false := by
            rw [formatAllCells_isEmpty]
            exact hne
          rw [h1]
          show format_financial_dataframe (some (formatAllCells d)) st = _
          simp only [format_financial_dataframe]
          rw [if_neg (by simp [he2]), if_pos ht,
            order_financial_statement_passthrough (formatAllCells d) st hk he2]
          show Except.ok (some (formatAllCells (formatAllCells d))) = _
          rw [formatAllCells_idem]
        | some canon =>
          by_cases hnd : d.index.Nodup
          · have hcanon : canon.Nodup := kindOrder_nodup st canon hk
            have hInd : (orderedIndices canon d.index).Nodup :=
              nodup_orderedIndices canon d.index hcanon
            have h1 := ffd_nonempty_ordered d st canon hk ht hnd hne
            set r1 := formatAllCells (reindexFrame d (orderedIndices canon d.index)) with hr1
            have hidx : r1.index = orderedIndices canon d.index := by
              rw [hr1, formatAllCells_index, reindexFrame_index]
            have hr1ne : r1.isEmptyDF = false := by
              rw [hr1, formatAllCells_isEmpty]
              apply (isEmptyDF_false_iff _).mpr
              constructor
              · show ((orderedIndices canon d.index).map
                  (fun label => lookupRow d.rows d.cols label)) ≠ []
                intro hnil
                exact orderedIndices_ne_nil canon d.index (index_ne_nil_of_rows d hrows)
                  (List.map_eq_nil_iff.mp hnil)
              · exact hcols
            have hord2 : order_financial_statement (some r1) st =
                Except.ok (some (reindexFrame r1 (orderedIndices canon r1.index))) :=
              order_financial_statement_ok r1 st canon hk (by rw [hidx]; exact hInd) hr1ne
            have hre : reindexFrame r1 (orderedIndices canon r1.index) = r1 := by
              have h3 : orderedIndices canon r1.index = r1.index := by
                rw [hidx]
                exact orderedIndices_idem canon d.index hcanon hnd
              rw [h3]
              exact reindexFrame_self r1 (by rw [hidx]; exact hInd)
            have h2 : format_financial_dataframe (some r1) st = Except.ok (some r1) := by
              simp only [format_financial_dataframe]
              rw [if_neg (by simp [hr1ne]), if_pos ht, hord2, hre]
              show Except.ok (some (formatAllCells r1)) = _
              rw [hr1, formatAllCells_idem]
            rw [h1]
            show format_financial_dataframe (some r1) st = Except.ok (some r1)
            exact h2
          · have hord : order_financial_statement (some d) st =
                Except.error "cannot reindex on an axis with duplicate labels" := by
              simp only [order_financial_statement]
              rw [if_neg he, hk]
              show Except.map (fun r => some r) (reindexE d (orderedIndices canon d.index)) = _
              unfold reindexE
              rw [if_neg hnd]
              rfl
            have h1 : format_financial_dataframe (some d) st =
                Except.error "cannot reindex on an axis with duplicate labels" := by
              simp only [format_financial_dataframe]
              rw [if_neg he, if_pos ht, hord]
              rfl
            rw [h1]
            rfl
      · have h1 : format_financial_dataframe (some d) st =
            Except.ok (some (formatAllCells d)) := by
          simp only [format_financial_dataframe]
          rw [if_neg he, if_neg ht]
          rfl
        have he2 : (formatAllCells d).isEmptyDF = false := by
          rw [formatAllCells_isEmpty]
          exact hne
        rw [h1]
        show format_financial_dataframe (some (formatAllCells d)) st = _
        simp only [format_financial_dataframe]
        rw [if_neg (by simp [he2]), if_neg ht]
        show Except.ok (some (formatAllCells (formatAllCells d))) = _
        rw [formatAllCells_idem]

theorem C10_bool_cells :
    formatCell (Cell.boolVal true) = Cell.strVal "1.00" ∧
    formatCell (Cell.boolVal false) = Cell.strVal "0.00" ∧
    format_financial_dataframe (some boolCellDF) Option.none =
      Except.ok (some boolCellDFFormatted) := by
  exact ⟨by decide, by decide, by decide⟩

theorem ffdSt_plain_of_kind_none (s : Store) (r : Nat) (st : Option String)
    (he : (s.getRef r).isEmptyDF = false) (ht : truthy st = true)
    (hk : kindOrder st = Option.none) :
    formatFinancialDataframeSt s r st =
      Except.ok ((s.alloc (s.getRef r)).fst.setRef (s.alloc (s.getRef r)).snd
        (formatAllCells (s.getRef r)), (s.alloc (s.getRef r)).snd) := by
  simp only [formatFinancialDataframeSt]
  rw [if_neg (by simp [he]), if_pos ht, hk]

theorem ffdSt_plain_of_falsy (s : Store) (r : Nat) (st : Option String)
    (he : (s.getRef r).isEmptyDF = false) (ht : ¬ truthy st = true) :
    formatFinancialDataframeSt s r st =
      Except.ok ((s.alloc (s.getRef r)).fst.setRef (s.alloc (s.getRef r)).snd
        (formatAllCells (s.getRef r)), (s.alloc (s.getRef r)).snd) := by
  simp only [formatFinancialDataframeSt]
  rw [if_neg (by simp [he]), if_neg ht]

theorem ffdSt_canon (s : Store) (r : Nat) (st : Option String) (canon : List String)
    (he : (s.getRef r).isEmptyDF = false) (ht : truthy st = true)
    (hk : kindOrder st = some canon) :
    formatFinancialDataframeSt s r st =
      (reindexE (s.getRef r) (orderedIndices canon (s.getRef r).index)).map
        (fun d2 => (((s.alloc (s.getRef r)).fst.alloc d2).fst.setRef
            ((s.alloc (s.getRef r)).fst.alloc d2).snd (formatAllCells d2),
          ((s.alloc (s.getRef r)).fst.alloc d2).snd)) := by
  simp only [formatFinancialDataframeSt]
  rw [if_neg (by simp [he]), if_pos ht, hk]

theorem alloc_set_getRef (s : Store) (d x : DataFrame) (r : Nat) (hr : r < s.dfs.length) :
    ((s.alloc d).fst.setRef (s.alloc d).snd x).getRef r = s.getRef r := by
  unfold Store.alloc Store.setRef Store.getRef
  simp only [List.getD_eq_getElem?_getD]
  rw [List.getElem?_set_ne (by omega)]
  rw [List.getElem?_append_left hr]

theorem alloc2_set_getRef (s : Store) (d d2 x : DataFrame) (r : Nat)
    (hr : r < s.dfs.length) :
    (((s.alloc d).fst.alloc d2).fst.setRef ((s.alloc d).fst.alloc d2).snd x).getRef r
      = s.getRef r := by
  unfold Store.alloc Store.setRef Store.getRef
  simp only [List.getD_eq_getElem?_getD]
  rw [List.getElem?_set_ne (by simp only [List.length_append, List.length_singleton]; omega)]
  rw [List.getElem?_append_left (by simp only [List.length_append, List.length_singleton]; omega)]
  rw [List.getElem?_append_left hr]

/-- **C9.** Purity with respect to the input object: whenever the
state-passing normalizer succeeds, the frame at the input reference is
unchanged in the resulting heap (only the freshly allocated copy or
reindexed frame is ever written). -/
theorem C9_no_input_mutation (s : Store) (r : Nat) (st : Option String)
    (p : Store × Nat)
    (h : formatFinancialDataframeSt s r st = Except.ok p) :
    p.fst.getRef r = s.getRef r := by
  by_cases he : (s.getRef r).isEmptyDF = true
  · simp only [formatFinancialDataframeSt] at h
    rw [if_pos he] at h
    injection h with h'
    subst h'
    rfl
  · have hne : (s.getRef r).isEmptyDF = false := by simpa using he
    have hr : r < s.dfs.length := by
      by_contra hge
      push_neg at hge
      have hd : s.getRef r = emptyDF := by
        unfold Store.getRef
        rw [List.getD_eq_getElem?_getD, List.getElem?_eq_none (by omega)]
        rfl
      rw [hd] at he
      exact he rfl
    by_cases ht : truthy st = true
    · cases hk : kindOrder st with
      | none =>
        rw [ffdSt_plain_of_kind_none s r st hne ht hk] at h
        injection h with h'
        subst h'
        exact alloc_set_getRef s _ _ r hr
      | some canon =>
        rw [ffdSt_canon s r st canon hne ht hk] at h
        cases hre : reindexE (s.getRef r) (orderedIndices canon (s.getRef r).index) with
        | error e =>
          rw [hre] at h
          simp only [Except.map] at h
          exact Except.noConfusion h
        | ok d2 =>
          rw [hre] at h
          simp only [Except.map] at h
          injection h with h'
          subst h'
          exact alloc2_set_getRef s _ _ _ r hr
    · rw [ffdSt_plain_of_falsy s r st hne ht] at h
      injection h with h'
      subst h'
      exact alloc_set_getRef s _ _ r hr

theorem C9_witness :
    formatFinancialDataframeSt storeW 0 Option.none =
      Except.ok ((storeW.alloc exampleIncomeDF).fst.setRef 1 (formatAllCells exampleIncomeDF), 1) ∧
    ((storeW.alloc exampleIncomeDF).fst.setRef 1 (formatAllCells exampleIncomeDF)).getRef 0 =
      storeW.getRef 0 :=
  ⟨by decide,
    C9_no_input_mutation storeW 0 Option.none
      ((storeW.alloc exampleIncomeDF).fst.setRef 1 (formatAllCells exampleIncomeDF), 1)
      (by decide)⟩

end Stocks
